import Mathlib

/-!
Verification of the go-spaserve repository: a shallow embedding of its
snapshot copier (CopyFileSys), entry-document rewriter (InjectWebEnv, the
HTML head splice) and the two request resolvers (the StaticFilesHandler
closure and the NewStaticFilesHandler ServeHTTP method), together with
theorems settling the specification claims.

Strings from the Go code are modelled as lists of characters (CStr), byte
payloads as lists of naturals.  External collaborators (the html parser and
renderer of golang.org/x/net/html, the JSON marshaller of encoding/json,
the memfs Open primitive) are passed in as explicit function parameters or
result values, exactly at the boundary where the Go code calls them.
-/

/-- Character strings of the model: Go strings as lists of characters. -/
abbrev CStr := List Char

/-- Byte payloads of the model: Go byte slices as lists of naturals. -/
abbrev Bytes := List Nat

/-! ### String primitives (models of the Go standard library helpers used) -/

/-- Models strings.HasPrefix: the first list is a leading segment of the second. -/
def hasPre : CStr → CStr → Bool
  | [], _ => true
  | _ :: _, [] => false
  | p :: ps, c :: rest => p == c && hasPre ps rest

/-- Models strings.TrimPrefix: removes one leading copy of the first argument. -/
def trimPre (pre s : CStr) : CStr :=
  if hasPre pre s then s.drop pre.length else s

/-- Models strings.TrimSuffix: removes one trailing copy of the first argument. -/
def trimSuf (suf s : CStr) : CStr :=
  if hasPre suf.reverse s.reverse then s.take (s.length - suf.length) else s

/-- Splits a character list at every slash, keeping empty segments, as
strings.Split(s, "/") does. -/
def splitSlash : CStr → List CStr
  | [] => [[]]
  | c :: rest =>
    if c = '/' then [] :: splitSlash rest
    else
      match splitSlash rest with
      | [] => [[c]]
      | g :: gs => (c :: g) :: gs

/-- Joins segments with slashes, as strings.Join(xs, "/") does. -/
def joinSlash : List CStr → CStr
  | [] => []
  | [x] => x
  | x :: xs => x ++ '/' :: joinSlash xs

/-- Models Go path.Clean: lexical cleaning of a slash-separated path.
Empty input becomes a dot; dot segments are dropped; a dot-dot segment pops
the previous segment, is dropped at the root of a rooted path, and is kept
at the front of an unrooted path. -/
def goClean (p : CStr) : CStr :=
  if p = [] then ['.']
  else
    let rooted := p.head? = some '/'
    let comps := (splitSlash p).filter (fun c => !(c == [] || c == ['.']))
    let stack := comps.foldl
      (fun acc c =>
        if c = ['.', '.'] then
          match acc with
          | [] => if rooted then [] else [['.', '.']]
          | top :: rest => if top = ['.', '.'] then c :: acc else rest
        else c :: acc) []
    let body := joinSlash stack.reverse
    if rooted then '/' :: body
    else if body = [] then ['.'] else body

/-- Scans a reversed path for a dot before any slash. -/
def extScan : CStr → Bool
  | [] => false
  | c :: rest =>
    if c = '/' then false
    else if c = '.' then true
    else extScan rest

/-- Models path.Ext(p) being nonempty: the final path element contains a dot. -/
def extNonEmpty (p : CStr) : Bool := extScan p.reverse

/-- Models unicode.IsSpace for the characters Go's strings.TrimSpace trims:
ASCII whitespace, NEL, NBSP and the Unicode space separators. -/
def isGoSpace (c : Char) : Bool :=
  let n := c.toNat
  n == 32 || (Nat.ble 9 n && Nat.ble n 13) || n == 133 || n == 160 ||
  n == 0x1680 || (Nat.ble 0x2000 n && Nat.ble n 0x200a) ||
  n == 0x2028 || n == 0x2029 || n == 0x202f || n == 0x205f || n == 0x3000

/-- Models strings.TrimSpace: drops leading and trailing whitespace. -/
def trimSpace (s : CStr) : CStr :=
  ((s.dropWhile isGoSpace).reverse.dropWhile isGoSpace).reverse

/-- First character class of the namespace regular expression: a letter or
an underscore. -/
def nsHeadOK (c : Char) : Bool :=
  (Nat.ble 65 c.toNat && Nat.ble c.toNat 90) ||
  (Nat.ble 97 c.toNat && Nat.ble c.toNat 122) || c == '_'

/-- Later character class of the namespace regular expression: a letter, a
digit or an underscore. -/
def nsTailOK (c : Char) : Bool :=
  nsHeadOK c || (Nat.ble 48 c.toNat && Nat.ble c.toNat 57)

/-- Models namespaceRegex.Match for the anchored pattern of injectWebEnv.go:
a letter or underscore followed by letters, digits or underscores. -/
def nsMatch : CStr → Bool
  | [] => false
  | c :: rest => nsHeadOK c && rest.all nsTailOK

/-! ### Request resolvers -/

/-- Result of opening a path in the in-memory snapshot, the boundary to the
external memfs Open primitive: success, a not-exist error, or any other
error. -/
inductive OpenRes where
  | ok
  | notExist
  | otherErr
deriving DecidableEq

/-- Resolution outcome of one request.  The serve constructor carries the
effective request path handed to the delegated http.FileServer; serving the
root path is the entry-document fallback.  The crash constructor models the
out-of-range byte index the StaticFilesHandler closure performs on an empty
cleaned path. -/
inductive Outcome where
  | serve (p : CStr)
  | notFound
  | serverError
  | crash
deriving DecidableEq

/-- Cleaned path of the NewStaticFilesHandler ServeHTTP method: path.Clean,
then TrimPrefix of the base path, then TrimPrefix of a slash, then
TrimSuffix of a slash. -/
def cleanedNew (basePath raw : CStr) : CStr :=
  trimSuf "/".data (trimPre "/".data (trimPre basePath (goClean raw)))

/-- Models the ServeHTTP method of the StaticFilesHandler struct (the
NewStaticFilesHandler variant): clean the path, rebuild it with a leading
slash, compare the rebuilt path against the string index.html (the literal
comparison the source performs), serve the root directly, and otherwise
probe the snapshot and branch on the open result and the extension test. -/
def serveHTTPNew (basePath : CStr) (snapOpen : CStr → OpenRes) (raw : CStr) : Outcome :=
  let cleaned := cleanedNew basePath raw
  let p0 := '/' :: cleaned
  let p := if p0 = "index.html".data then "/".data else p0
  if p = "/".data then Outcome.serve "/".data
  else
    match snapOpen cleaned with
    | OpenRes.otherErr => Outcome.serverError
    | OpenRes.notExist =>
      if extNonEmpty cleaned then Outcome.notFound else Outcome.serve "/".data
    | OpenRes.ok => Outcome.serve p

/-- Cleaned path of the StaticFilesHandler closure: path.Clean followed by
TrimPrefix of the base path. -/
def cleanedStatic (basePath raw : CStr) : CStr :=
  trimPre basePath (goClean raw)

/-- Models the request closure returned by StaticFilesHandler in
staticFileServerHandler.go: the root path is served directly; otherwise the
cleaned path is opened in the snapshot first, the path is re-prefixed with
a slash, a path equal to /index.html is rewritten to the root, and the
outcome branches on the open result and the extension test.  An empty
cleaned path indexes byte zero of an empty string in the source, modelled
as crash. -/
def serveHTTPStatic (basePath : CStr) (snapOpen : CStr → OpenRes) (raw : CStr) : Outcome :=
  if raw = "/".data then Outcome.serve "/".data
  else
    let cleaned := cleanedStatic basePath raw
    let res := snapOpen cleaned
    match cleaned with
    | [] => Outcome.crash
    | c0 :: rest =>
      let p1 := if c0 ≠ '/' then '/' :: c0 :: rest else c0 :: rest
      let p2 := if p1 = "/index.html".data then "/".data else p1
      match res with
      | OpenRes.otherErr => Outcome.serverError
      | OpenRes.notExist =>
        if extNonEmpty (c0 :: rest) then Outcome.notFound else Outcome.serve "/".data
      | OpenRes.ok => Outcome.serve p2

/-- Models WithBasePath of staticFileServerHandler.go: an empty argument
becomes the default base path, then a leading slash is prepended when
absent and a trailing slash appended when absent. -/
def withBasePath (basePath : CStr) : CStr :=
  let b1 := if basePath = [] then "/".data else basePath
  let b2 := if b1.head? ≠ some '/' then '/' :: b1 else b1
  if b2.getLast? ≠ some '/' then b2 ++ "/".data else b2

/-! ### Errors, snapshot and the copy walk -/

/-- The error values of the package (errors.go), plus the walk-level wrap
kinds used by CopyFileSys. -/
inductive SErr where
  | noNamespace
  | couldNotParseNamespace
  | noIndexFound
  | couldNotMarshalConfig
  | unexpectedWalkError
  | couldNotMakeDir
  | couldNotOpenFile
  | couldNotReadFile
  | couldNotWriteFile
  | couldNotParseIndex
  | couldNotFindHead
  | couldNotWriteIndex
deriving DecidableEq

/-- The in-memory snapshot built by CopyFileSys: the directories created and
the files written.  Writes prepend and lookups take the first match, so a
later write to the same path shadows an earlier one, matching overwrite
semantics of memfs WriteFile. -/
structure Snap where
  dirs : List CStr
  files : List (CStr × Bytes)
deriving DecidableEq

/-- The empty snapshot, as memfs.New produces. -/
def Snap.empty : Snap := ⟨[], []⟩

/-- Models MkdirAll on the snapshot. -/
def Snap.mkAll (s : Snap) (p : CStr) : Snap := { s with dirs := p :: s.dirs }

/-- Models WriteFile on the snapshot. -/
def Snap.writeFile (s : Snap) (p : CStr) (b : Bytes) : Snap :=
  { s with files := (p, b) :: s.files }

/-- Content of a file of the snapshot, when present. -/
def Snap.lookupFile (s : Snap) (p : CStr) : Option Bytes :=
  (s.files.find? (fun e => e.1 == p)).map (fun e => e.2)

/-- Models OnHookFunc: a transform from path and bytes to bytes or an error. -/
abbrev Hook := CStr → Bytes → Except SErr Bytes

/-- One entry of the pre-order walk fs.WalkDir delivers: a directory, a file
with its content, or an entry for which the walk itself reports an error.
The boolean flags inject the possible failures of the corresponding memfs
and source-filesystem operations at that entry. -/
inductive WalkEntry where
  | dirE (path : CStr) (mkdirFails : Bool)
  | fileE (path : CStr) (content : Bytes) (openFails readFails writeFails : Bool)
  | errE (path : CStr)
deriving DecidableEq

/-- Path of a walk entry. -/
def entryPath : WalkEntry → CStr
  | WalkEntry.dirE p _ => p
  | WalkEntry.fileE p _ _ _ _ => p
  | WalkEntry.errE p => p

/-- Applies the optional hook as CopyFileSys does: a missing hook is the
identity. -/
def hookApply (onHook : Option Hook) (p : CStr) (d : Bytes) : Except SErr Bytes :=
  match onHook with
  | none => Except.ok d
  | some h => h p d

/-- Result of the copy walk: the memfs built so far, the error that aborted
the walk when one did, and the number of entries visited. -/
structure CopyOut where
  snap : Snap
  err : Option SErr
  visited : Nat
deriving DecidableEq

/-- The walk body of CopyFileSys over the remaining entries, threading the
snapshot: a walk error, a failing mkdir, open, read, hook or write aborts
with the corresponding error and the snapshot built so far; otherwise the
entry is materialised and the walk continues. -/
def copyGo (onHook : Option Hook) : List WalkEntry → Snap → CopyOut
  | [], s => ⟨s, none, 0⟩
  | e :: rest, s =>
    match e with
    | WalkEntry.errE _ => ⟨s, some SErr.unexpectedWalkError, 1⟩
    | WalkEntry.dirE p mkdirFails =>
      if mkdirFails then ⟨s, some SErr.couldNotMakeDir, 1⟩
      else
        let r := copyGo onHook rest (s.mkAll p)
        ⟨r.snap, r.err, r.visited + 1⟩
    | WalkEntry.fileE p dat openFails readFails writeFails =>
      if openFails then ⟨s, some SErr.couldNotOpenFile, 1⟩
      else if readFails then ⟨s, some SErr.couldNotReadFile, 1⟩
      else
        match hookApply onHook p dat with
        | Except.error he => ⟨s, some he, 1⟩
        | Except.ok d2 =>
          if writeFails then ⟨s, some SErr.couldNotWriteFile, 1⟩
          else
            let r := copyGo onHook rest (s.writeFile p d2)
            ⟨r.snap, r.err, r.visited + 1⟩

/-- Models CopyFileSys of the repository: walks the source entries from an
empty memfs and returns the snapshot together with the walk error; note the
Go function returns the memfs value unconditionally, also when err is
non-nil. -/
def CopyFileSys (entries : List WalkEntry) (onHook : Option Hook) : CopyOut :=
  copyGo onHook entries Snap.empty

/-- The error, when any, that processing a single entry produces; in this
model an entry's failure does not depend on the snapshot state. -/
def entryFailure (onHook : Option Hook) : WalkEntry → Option SErr
  | WalkEntry.errE _ => some SErr.unexpectedWalkError
  | WalkEntry.dirE _ mkdirFails =>
    if mkdirFails then some SErr.couldNotMakeDir else none
  | WalkEntry.fileE p dat openFails readFails writeFails =>
    if openFails then some SErr.couldNotOpenFile
    else if readFails then some SErr.couldNotReadFile
    else
      match hookApply onHook p dat with
      | Except.error he => some he
      | Except.ok _ => if writeFails then some SErr.couldNotWriteFile else none

/-- Snapshot state after successfully processing one entry. -/
def stepState (onHook : Option Hook) (e : WalkEntry) (s : Snap) : Snap :=
  match e with
  | WalkEntry.errE _ => s
  | WalkEntry.dirE p _ => s.mkAll p
  | WalkEntry.fileE p dat _ _ _ =>
    match hookApply onHook p dat with
    | Except.error _ => s
    | Except.ok d2 => s.writeFile p d2

/-- The caller-side pattern of both handler constructors: when CopyFileSys
reports an error the snapshot is dropped and only the error is returned. -/
def snapshotOrErr (entries : List WalkEntry) (onHook : Option Hook) : Except SErr Snap :=
  let r := CopyFileSys entries onHook
  match r.err with
  | some e => Except.error e
  | none => Except.ok r.snap

/-! ### HTML document model and the head splice -/

/-- Node types of the x/net/html node graph that the code distinguishes. -/
inductive NType where
  | document
  | element
  | text
  | comment
  | doctype
deriving DecidableEq

/-- A parsed HTML node: its type, its data string (tag name or text), its
attributes and its children in order. -/
inductive HNode where
  | mk (ntype : NType) (ndata : CStr) (attrs : List (CStr × CStr)) (children : List HNode)

mutual

/-- Models findHead of injectWebEnv.go: a body element yields nil, a head
element yields itself, and otherwise the children are searched depth-first
in order. -/
def findHead : HNode → Option HNode
  | HNode.mk t d a cc =>
    if t = NType.element ∧ d = "body".data then none
    else if t = NType.element ∧ d = "head".data then some (HNode.mk t d a cc)
    else findHeadList cc

/-- The child loop of findHead: first successful recursive result wins. -/
def findHeadList : List HNode → Option HNode
  | [] => none
  | c :: rest =>
    match findHead c with
    | some h => some h
    | none => findHeadList rest

end

mutual

/-- Rewrites the document along the traversal of findHead, inserting the
given node as the new first child of the head element findHead locates;
yields none exactly when findHead finds no head.  This is the functional
rendering of headTag.InsertBefore(t, headTag.FirstChild) applied to the
node findHead returned, proved to correspond to findHead below. -/
def spliceHead (tag : HNode) : HNode → Option HNode
  | HNode.mk t d a cc =>
    if t = NType.element ∧ d = "body".data then none
    else if t = NType.element ∧ d = "head".data then some (HNode.mk t d a (tag :: cc))
    else (spliceHeadList tag cc).map (HNode.mk t d a)

/-- The child loop of spliceHead: the first child subtree holding a head is
rewritten, the others are kept. -/
def spliceHeadList (tag : HNode) : List HNode → Option (List HNode)
  | [] => none
  | c :: rest =>
    match spliceHead tag c with
    | some c2 => some (c2 :: rest)
    | none => (spliceHeadList tag rest).map (fun l => c :: l)

end

mutual

/-- Depth-first preorder listing of node type and data, the order in which
findHead visits nodes. -/
def preTags : HNode → List (NType × CStr)
  | HNode.mk t d _ cc => (t, d) :: preTagsList cc

/-- Preorder listing over a forest. -/
def preTagsList : List HNode → List (NType × CStr)
  | [] => []
  | c :: rest => preTags c ++ preTagsList rest

end

/-- The script element constructScriptTag builds: a script element with a
type attribute of text/javascript and a single text child holding
window.NS space equals space JSON semicolon. -/
def scriptNode (ns b : CStr) : HNode :=
  HNode.mk NType.element "script".data [("type".data, "text/javascript".data)]
    [HNode.mk NType.text ("window.".data ++ ns ++ " = ".data ++ b ++ ";".data) [] []]

/-- Models constructScriptTag: json.Marshal of the configuration is the
external marshalRes value; a marshal failure is the marshal-config error,
success yields the script node over the marshalled text. -/
def constructScriptTagE (ns : CStr) (marshalRes : Except Unit CStr) : Except SErr HNode :=
  match marshalRes with
  | Except.error _ => Except.error SErr.couldNotMarshalConfig
  | Except.ok b => Except.ok (scriptNode ns b)

/-- Models the hook appendToIndex returns: any path other than index.html
passes through unchanged; for index.html the bytes are parsed (parseHtml is
the external html.Parse), the script node is spliced in as first child of
the head found by findHead, failing with the find-head error when there is
none, and the document is rendered back (renderHtml is the external
html.Render). -/
def appendToIndexM (parseHtml : Bytes → Except Unit HNode)
    (renderHtml : HNode → Except Unit Bytes) (tag : HNode) (p : CStr) (d : Bytes) :
    Except SErr Bytes :=
  if p ≠ "index.html".data then Except.ok d
  else
    match parseHtml d with
    | Except.error _ => Except.error SErr.couldNotParseIndex
    | Except.ok doc =>
      match spliceHead tag doc with
      | none => Except.error SErr.couldNotFindHead
      | some doc2 =>
        match renderHtml doc2 with
        | Except.error _ => Except.error SErr.couldNotWriteIndex
        | Except.ok b => Except.ok b

/-! ### InjectWebEnv -/

/-- The source filesystem as InjectWebEnv observes it: whether opening
index.html at the root succeeds, and the pre-order walk entries. -/
structure SourceFS where
  hasIndex : Bool
  entries : List WalkEntry

/-- Models indexExists: one Open of index.html in the source tree. -/
def indexExists (filesys : SourceFS) : Bool := filesys.hasIndex

/-- Result of InjectWebEnv: the returned memfs pointer (none models a nil
return), the returned error, and the number of source-filesystem operations
performed (the index probe plus one per walk entry visited). -/
structure InjResult where
  snap : Option Snap
  err : Option SErr
  fsOps : Nat
deriving DecidableEq

/-- Models InjectWebEnv of injectWebEnv.go: reject an empty namespace, trim
it, reject a trim that fails the namespace pattern, require index.html,
build the script tag from the marshalled configuration, and delegate to
CopyFileSys with the appendToIndex hook.  All validation happens before the
first filesystem operation. -/
def InjectWebEnv (filesys : SourceFS) (parseHtml : Bytes → Except Unit HNode)
    (renderHtml : HNode → Except Unit Bytes) (marshalRes : Except Unit CStr)
    (ns : CStr) : InjResult :=
  if ns = [] then ⟨none, some SErr.noNamespace, 0⟩
  else
    let ns2 := trimSpace ns
    if nsMatch ns2 = false then ⟨none, some SErr.couldNotParseNamespace, 0⟩
    else if indexExists filesys = false then ⟨none, some SErr.noIndexFound, 1⟩
    else
      match constructScriptTagE ns2 marshalRes with
      | Except.error e => ⟨none, some e, 1⟩
      | Except.ok tag =>
        let r := CopyFileSys filesys.entries (some (appendToIndexM parseHtml renderHtml tag))
        ⟨some r.snap, r.err, 1 + r.visited⟩

/-! ### Helper lemmas about the copy walk -/

/-- A failing entry stops the walk at once with its error and the snapshot
built so far. -/
theorem copyGo_cons_fail (onHook : Option Hook) (q : WalkEntry) (rest : List WalkEntry)
    (s : Snap) (e : SErr) (hf : entryFailure onHook q = some e) :
    copyGo onHook (q :: rest) s = ⟨s, some e, 1⟩ := by
  cases q with
  | errE p =>
    simp only [entryFailure, Option.some.injEq] at hf
    simp [copyGo, ← hf]
  | dirE p mkdirFails =>
    cases mkdirFails with
    | true =>
      simp only [entryFailure, if_pos trivial, Option.some.injEq] at hf
      simp [copyGo, ← hf]
    | false => simp [entryFailure] at hf
  | fileE p dat openFails readFails writeFails =>
    cases openFails with
    | true =>
      simp only [entryFailure, if_pos trivial, Option.some.injEq] at hf
      simp [copyGo, ← hf]
    | false =>
      cases readFails with
      | true =>
        simp only [entryFailure] at hf
        simp only [copyGo]
        simp_all
      | false =>
        cases hres : hookApply onHook p dat with
        | error he =>
          simp only [entryFailure, hres] at hf
          simp only [copyGo, hres]
          simp_all
        | ok d2 =>
          cases writeFails with
          | true =>
            simp only [entryFailure, hres] at hf
            simp only [copyGo, hres]
            simp_all
          | false =>
            simp [entryFailure, hres] at hf

/-- A successful entry materialises its effect and the walk continues on
the rest. -/
theorem copyGo_cons_ok (onHook : Option Hook) (q : WalkEntry) (rest : List WalkEntry)
    (s : Snap) (hf : entryFailure onHook q = none) :
    copyGo onHook (q :: rest) s =
      ⟨(copyGo onHook rest (stepState onHook q s)).snap,
        (copyGo onHook rest (stepState onHook q s)).err,
        (copyGo onHook rest (stepState onHook q s)).visited + 1⟩ := by
  cases q with
  | errE p => simp [entryFailure] at hf
  | dirE p mkdirFails =>
    cases mkdirFails with
    | true => simp [entryFailure] at hf
    | false => simp [copyGo, stepState]
  | fileE p dat openFails readFails writeFails =>
    cases openFails with
    | true => simp [entryFailure] at hf
    | false =>
      cases readFails with
      | true => simp [entryFailure] at hf
      | false =>
        cases hres : hookApply onHook p dat with
        | error he => simp [entryFailure, hres] at hf
        | ok d2 =>
          cases writeFails with
          | true => simp [entryFailure, hres] at hf
          | false => simp [copyGo, stepState, hres]

/-- When a prefix of the walk succeeds and the next entry fails, the whole
walk returns the prefix snapshot, the entry's error and stops counting at
that entry: nothing after the failing entry is ever visited. -/
theorem copyGo_append_fail (onHook : Option Hook) (pre : List WalkEntry) :
    ∀ (s0 : Snap) (ent : WalkEntry) (rest : List WalkEntry) (e : SErr),
      (copyGo onHook pre s0).err = none → entryFailure onHook ent = some e →
      copyGo onHook (pre ++ ent :: rest) s0 =
        ⟨(copyGo onHook pre s0).snap, some e, pre.length + 1⟩ := by
  induction pre with
  | nil =>
    intro s0 ent rest e _ hf
    simpa [copyGo] using copyGo_cons_fail onHook ent rest s0 e hf
  | cons q pre ih =>
    intro s0 ent rest e hok hf
    cases hq : entryFailure onHook q with
    | some e2 => rw [copyGo_cons_fail onHook q pre s0 e2 hq] at hok; simp at hok
    | none =>
      rw [copyGo_cons_ok onHook q pre s0 hq] at hok
      simp only [List.cons_append]
      rw [copyGo_cons_ok onHook q (pre ++ ent :: rest) s0 hq,
        ih (stepState onHook q s0) ent rest e hok hf,
        copyGo_cons_ok onHook q pre s0 hq]
      simp [List.length_cons]

/-- The snapshot a successful walk step leaves holds the same file contents
at every path the step does not write. -/
theorem stepState_lookup (onHook : Option Hook) (q : WalkEntry) (s : Snap) (p : CStr)
    (hp : p ≠ entryPath q) :
    (stepState onHook q s).lookupFile p = s.lookupFile p := by
  cases q with
  | errE q0 => rfl
  | dirE q0 mf => rfl
  | fileE q0 dat oF rF wF =>
    simp only [entryPath] at hp
    cases hres : hookApply onHook q0 dat with
    | error he => simp [stepState, hres]
    | ok d2 =>
      simp only [stepState, hres, Snap.lookupFile, Snap.writeFile]
      rw [List.find?_cons_of_neg]
      simp [hp]
      exact fun h => hp h.symm

/-- The copy walk never changes the contents stored at a path that none of
its entries carries. -/
theorem copyGo_lookup_not_mem (onHook : Option Hook) (entries : List WalkEntry) :
    ∀ (s : Snap) (p : CStr), p ∉ entries.map entryPath →
      ((copyGo onHook entries s).snap).lookupFile p = s.lookupFile p := by
  induction entries with
  | nil => intro s p _; rfl
  | cons q rest ih =>
    intro s p hp
    simp only [List.map_cons, List.mem_cons, not_or] at hp
    cases hq : entryFailure onHook q with
    | some e2 => rw [copyGo_cons_fail onHook q rest s e2 hq]
    | none =>
      rw [copyGo_cons_ok onHook q rest s hq]
      have h1 := ih (stepState onHook q s) p (by simpa using hp.2)
      rw [h1, stepState_lookup onHook q s p (fun h => hp.1 h)]

/-- A successful walk stores each source file whose path the hook passes
through unchanged, provided entry paths are distinct as fs.WalkDir
guarantees. -/
theorem copyGo_preserves (onHook : Option Hook) (entries : List WalkEntry) :
    ∀ (s0 : Snap) (p : CStr) (c : Bytes) (oF rF wF : Bool),
      (entries.map entryPath).Nodup →
      (copyGo onHook entries s0).err = none →
      WalkEntry.fileE p c oF rF wF ∈ entries →
      (∀ d, hookApply onHook p d = Except.ok d) →
      ((copyGo onHook entries s0).snap).lookupFile p = some c := by
  induction entries with
  | nil => intro s0 p c oF rF wF _ _ hmem _; simp at hmem
  | cons q rest ih =>
    intro s0 p c oF rF wF hnd hok hmem hhk
    simp only [List.map_cons, List.nodup_cons] at hnd
    cases hq : entryFailure onHook q with
    | some e2 => rw [copyGo_cons_fail onHook q rest s0 e2 hq] at hok; simp at hok
    | none =>
      rw [copyGo_cons_ok onHook q rest s0 hq] at hok ⊢
      rcases List.mem_cons.mp hmem with hq1 | hq1
      · subst hq1
        have hof : oF = false := by
          cases oF with
          | true => simp [entryFailure] at hq
          | false => rfl
        have hrf : rF = false := by
          cases rF with
          | true => simp [entryFailure, hof] at hq
          | false => rfl
        have hwf : wF = false := by
          cases wF with
          | true => simp [entryFailure, hof, hrf, hhk c] at hq
          | false => rfl
        subst hof; subst hrf; subst hwf
        have hstep : stepState onHook (WalkEntry.fileE p c false false false) s0 =
            s0.writeFile p c := by
          simp [stepState, hhk c]
        rw [hstep] at hok ⊢
        have hnot : p ∉ rest.map entryPath := by
          simpa [entryPath] using hnd.1
        rw [copyGo_lookup_not_mem onHook rest (s0.writeFile p c) p hnot]
        simp [Snap.lookupFile, Snap.writeFile]
      · exact ih (stepState onHook q s0) p c oF rF wF hnd.2 hok hq1 hhk

/-! ### Claim C1: the index.html root-rewrite -/

/-- Snapshot open function of a tree that holds exactly index.html. -/
def openWithIndex : CStr → OpenRes := fun p =>
  if p = "index.html".data then OpenRes.ok else OpenRes.notExist

/-- Claim C1, evaluated on the code: in NewStaticFilesHandler's ServeHTTP,
a request for /index.html with the default base path and index.html present
in the snapshot is NOT rewritten to the root: the guard compares the
slash-prefixed path against the bare string index.html, so it never fires
and the request is forwarded to the file server under /index.html (which
redirects).  And in the StaticFilesHandler closure the snapshot is probed
before the rewrite: with index.html absent the outcome is a 404, not the
entry document.  Both contradict the claim that /index.html is rewritten to
root and served directly without an existence probe. -/
theorem c1_indexHtml_rewrite_dead :
    serveHTTPNew "/".data openWithIndex "/index.html".data =
      Outcome.serve "/index.html".data ∧
    serveHTTPStatic "/".data (fun _ => OpenRes.notExist) "/index.html".data =
      Outcome.notFound := by
  constructor
  · decide
  · decide

/-! ### Claim C4: abort and exposure of partial snapshots -/

/-- Walk entries of the C4 counterexample: the first file copies fine, the
write of the second fails. -/
def c4Entries : List WalkEntry :=
  [WalkEntry.fileE "a.txt".data [1] false false false,
   WalkEntry.fileE "b.txt".data [2] false false true]

/-- Claim C4 counterexample: on this failing walk CopyFileSys returns the
error AND the partially built snapshot containing the first file — the
partial snapshot is made available to the caller on a failing return,
contradicting the claim that no partial snapshot is ever exposed. -/
theorem c4_partial_snapshot_returned :
    (CopyFileSys c4Entries none).err = some SErr.couldNotWriteFile ∧
    (CopyFileSys c4Entries none).snap ≠ Snap.empty ∧
    (CopyFileSys c4Entries none).snap.files = [("a.txt".data, [1])] := by
  refine ⟨by decide, by decide, by decide⟩

/-- Claim C4 as amended: a single failing entry aborts the walk at that
entry — the result is the snapshot of the successful prefix, the entry's
error, and a visit count that stops at the failing entry, independent of
everything after it; CopyFileSys itself still returns that partial snapshot
next to the error, and it is the caller-side check (snapshotOrErr, the
pattern of both handler constructors) that withholds the snapshot and
returns only the error. -/
theorem c4_abort_and_caller_discard (onHook : Option Hook) (pre : List WalkEntry)
    (ent : WalkEntry) (rest : List WalkEntry) (e : SErr)
    (hok : (copyGo onHook pre Snap.empty).err = none)
    (hf : entryFailure onHook ent = some e) :
    CopyFileSys (pre ++ ent :: rest) onHook =
      ⟨(copyGo onHook pre Snap.empty).snap, some e, pre.length + 1⟩ ∧
    snapshotOrErr (pre ++ ent :: rest) onHook = Except.error e := by
  have h1 := copyGo_append_fail onHook pre Snap.empty ent rest e hok hf
  refine ⟨h1, ?_⟩
  simp [snapshotOrErr, CopyFileSys] at h1 ⊢
  rw [h1]

/-- Witness for the amended C4 at a concrete walk. -/
theorem c4_abort_witness :
    CopyFileSys
        [WalkEntry.fileE "a.txt".data [1] false false false,
         WalkEntry.fileE "b.txt".data [2] false false true,
         WalkEntry.fileE "c.txt".data [3] false false false] none =
      ⟨⟨[], [("a.txt".data, [1])]⟩, some SErr.couldNotWriteFile, 2⟩ ∧
    snapshotOrErr
        [WalkEntry.fileE "a.txt".data [1] false false false,
         WalkEntry.fileE "b.txt".data [2] false false true,
         WalkEntry.fileE "c.txt".data [3] false false false] none =
      Except.error SErr.couldNotWriteFile := by
  have h := c4_abort_and_caller_discard none
    [WalkEntry.fileE "a.txt".data [1] false false false]
    (WalkEntry.fileE "b.txt".data [2] false false true)
    [WalkEntry.fileE "c.txt".data [3] false false false]
    SErr.couldNotWriteFile (by decide) (by decide)
  exact ⟨h.1.trans (by decide), h.2⟩

/-! ### Claims C5 and C6: validation before filesystem work -/

/-- Claim C5: an empty namespace or one whose trimmed form fails the
identifier pattern makes InjectWebEnv return the corresponding namespace
error with a nil snapshot and zero filesystem operations — validation
happens before any source-tree read or snapshot construction. -/
theorem c5_namespace_rejected_before_io (filesys : SourceFS)
    (parseHtml : Bytes → Except Unit HNode) (renderHtml : HNode → Except Unit Bytes)
    (marshalRes : Except Unit CStr) (ns : CStr) :
    (ns = [] → InjectWebEnv filesys parseHtml renderHtml marshalRes ns =
      ⟨none, some SErr.noNamespace, 0⟩) ∧
    (ns ≠ [] → nsMatch (trimSpace ns) = false →
      InjectWebEnv filesys parseHtml renderHtml marshalRes ns =
        ⟨none, some SErr.couldNotParseNamespace, 0⟩) := by
  constructor
  · intro h
    simp [InjectWebEnv, h]
  · intro h1 h2
    simp [InjectWebEnv, h1, h2]

/-- Witness for C5 at the empty namespace and at a namespace starting with
a digit. -/
theorem c5_namespace_rejected_witness :
    InjectWebEnv ⟨true, []⟩ (fun _ => Except.error ()) (fun _ => Except.error ())
        (Except.ok "42".data) [] = ⟨none, some SErr.noNamespace, 0⟩ ∧
    InjectWebEnv ⟨true, []⟩ (fun _ => Except.error ()) (fun _ => Except.error ())
        (Except.ok "42".data) "9bad".data =
      ⟨none, some SErr.couldNotParseNamespace, 0⟩ := by
  constructor
  · exact (c5_namespace_rejected_before_io ⟨true, []⟩ (fun _ => Except.error ())
      (fun _ => Except.error ()) (Except.ok "42".data) []).1 rfl
  · exact (c5_namespace_rejected_before_io ⟨true, []⟩ (fun _ => Except.error ())
      (fun _ => Except.error ()) (Except.ok "42".data) "9bad".data).2 (by decide) (by decide)

/-- Claim C6: with a valid namespace and a source tree lacking a root-level
index.html, InjectWebEnv fails with the entry-document-missing error at the
very first filesystem probe, returns a nil snapshot, and never starts the
copy walk. -/
theorem c6_missing_index_aborts (filesys : SourceFS)
    (parseHtml : Bytes → Except Unit HNode) (renderHtml : HNode → Except Unit Bytes)
    (marshalRes : Except Unit CStr) (ns : CStr)
    (hidx : filesys.hasIndex = false) (h1 : ns ≠ [])
    (h2 : nsMatch (trimSpace ns) = true) :
    InjectWebEnv filesys parseHtml renderHtml marshalRes ns =
      ⟨none, some SErr.noIndexFound, 1⟩ := by
  simp [InjectWebEnv, h1, h2, indexExists, hidx]

/-- Witness for C6 on a concrete empty source tree. -/
theorem c6_missing_index_witness :
    InjectWebEnv ⟨false, [WalkEntry.fileE "app.js".data [1] false false false]⟩
        (fun _ => Except.error ()) (fun _ => Except.error ())
        (Except.ok "42".data) "APP_ENV".data = ⟨none, some SErr.noIndexFound, 1⟩ :=
  c6_missing_index_aborts ⟨false, [WalkEntry.fileE "app.js".data [1] false false false]⟩
    (fun _ => Except.error ()) (fun _ => Except.error ()) (Except.ok "42".data)
    "APP_ENV".data rfl (by decide) (by decide)

/-! ### Claim C9: WithBasePath normalisation -/

/-- Claim C9: WithBasePath maps the empty argument to the default base path
and brackets every other argument with the missing slashes, so the stored
base path always begins and ends with a slash. -/
theorem c9_basePath_slashes (bp : CStr) :
    (withBasePath bp).head? = some '/' ∧ (withBasePath bp).getLast? = some '/' ∧
      (bp = [] → withBasePath bp = "/".data) := by
  by_cases hbp : bp = []
  · subst hbp
    exact ⟨by decide, by decide, fun _ => by decide⟩
  · have hb2h : (if bp.head? ≠ some '/' then '/' :: bp else bp).head? = some '/' := by
      by_cases hh : bp.head? = some '/'
      · rw [if_neg (not_not_intro hh)]
        exact hh
      · rw [if_pos hh]
        rfl
    have hb2ne : (if bp.head? ≠ some '/' then '/' :: bp else bp) ≠ [] := by
      by_cases hh : bp.head? = some '/'
      · rw [if_neg (not_not_intro hh)]
        exact hbp
      · rw [if_pos hh]
        simp
    refine ⟨?_, ?_, fun h => absurd h hbp⟩
    · simp only [withBasePath, if_neg hbp]
      by_cases hl : (if bp.head? ≠ some '/' then '/' :: bp else bp).getLast? = some '/'
      · rw [if_neg (not_not_intro hl)]
        exact hb2h
      · rw [if_pos hl]
        rw [List.head?_append_of_ne_nil _ hb2ne]
        exact hb2h
    · simp only [withBasePath, if_neg hbp]
      by_cases hl : (if bp.head? ≠ some '/' then '/' :: bp else bp).getLast? = some '/'
      · rw [if_neg (not_not_intro hl)]
        exact hl
      · rw [if_pos hl]
        show ((if bp.head? ≠ some '/' then '/' :: bp else bp) ++ ['/']).getLast? = some '/'
        rw [List.getLast?_append_cons]
        rfl

/-- Witness for C9 at the empty argument and at an unslashed argument. -/
theorem c9_basePath_witness :
    withBasePath [] = "/".data ∧ (withBasePath "app".data).head? = some '/' ∧
      (withBasePath "app".data).getLast? = some '/' :=
  ⟨(c9_basePath_slashes []).2.2 rfl, (c9_basePath_slashes "app".data).1,
    (c9_basePath_slashes "app".data).2.1⟩

/-! ### Helper lemmas about whitespace and the namespace pattern -/

/-- An identifier character is never one of the whitespace characters Go
trims. -/
theorem nsTailOK_not_space (c : Char) (h : nsTailOK c = true) : isGoSpace c = false := by
  have h2 : (65 ≤ c.toNat ∧ c.toNat ≤ 90) ∨ (97 ≤ c.toNat ∧ c.toNat ≤ 122) ∨
      c.toNat = 95 ∨ (48 ≤ c.toNat ∧ c.toNat ≤ 57) := by
    simp only [nsTailOK, nsHeadOK, Bool.or_eq_true, Bool.and_eq_true, Nat.ble_eq,
      beq_iff_eq] at h
    rcases h with ((hr | hr) | hu) | hr
    · exact Or.inl hr
    · exact Or.inr (Or.inl hr)
    · subst hu
      exact Or.inr (Or.inr (Or.inl rfl))
    · exact Or.inr (Or.inr (Or.inr hr))
  rw [Bool.eq_false_iff]
  intro hs
  simp only [isGoSpace, Bool.or_eq_true, Bool.and_eq_true, Nat.ble_eq, beq_iff_eq] at hs
  omega

/-- No character of a string matching the namespace pattern is whitespace. -/
theorem nsMatch_not_space (l : CStr) (h : nsMatch l = true) :
    ∀ x ∈ l, isGoSpace x = false := by
  match l with
  | [] => simp [nsMatch] at h
  | c :: rest =>
    simp only [nsMatch, Bool.and_eq_true, List.all_eq_true] at h
    intro x hx
    rcases List.mem_cons.mp hx with h1 | h1
    · subst h1
      exact nsTailOK_not_space x (by simp [nsTailOK, h.1])
    · exact nsTailOK_not_space x (h.2 x h1)

/-- Dropping while a predicate holds skips a block where it holds
throughout. -/
theorem dropWhile_append_all (p : Char → Bool) (l r : CStr)
    (h : ∀ x ∈ l, p x = true) : (l ++ r).dropWhile p = r.dropWhile p := by
  induction l with
  | nil => rfl
  | cons a l ih =>
    rw [List.cons_append, List.dropWhile_cons_of_pos (h a (by simp))]
    exact ih fun x hx => h x (List.mem_cons_of_mem a hx)

/-- Trimming a whitespace-padded identifier yields exactly the identifier. -/
theorem trimSpace_pad (ws1 core ws2 : CStr) (hm : nsMatch core = true)
    (h1 : ∀ x ∈ ws1, isGoSpace x = true) (h2 : ∀ x ∈ ws2, isGoSpace x = true) :
    trimSpace (ws1 ++ core ++ ws2) = core := by
  have hcs := nsMatch_not_space core hm
  have hne : core ≠ [] := by
    intro h
    subst h
    simp [nsMatch] at hm
  obtain ⟨c, ct, hc⟩ := List.exists_cons_of_ne_nil hne
  have hcneg : ¬isGoSpace c = true := by
    simp [hcs c (by rw [hc]; exact List.mem_cons_self c ct)]
  have step1 : (ws1 ++ core ++ ws2).dropWhile isGoSpace = core ++ ws2 := by
    rw [List.append_assoc, dropWhile_append_all isGoSpace ws1 (core ++ ws2) h1, hc,
      List.cons_append, List.dropWhile_cons_of_neg hcneg, ← List.cons_append, ← hc]
  rw [trimSpace, step1, List.reverse_append]
  rw [dropWhile_append_all isGoSpace ws2.reverse core.reverse
    (fun x hx => h2 x (List.mem_reverse.mp hx))]
  have hrne : core.reverse ≠ [] := by
    simpa [List.reverse_eq_nil_iff] using hne
  obtain ⟨d, l2, hd⟩ := List.exists_cons_of_ne_nil hrne
  have hdm : d ∈ core := by
    rw [← List.mem_reverse, hd]
    exact List.mem_cons_self d l2
  have hdneg : ¬isGoSpace d = true := by
    simp [hcs d hdm]
  rw [hd, List.dropWhile_cons_of_neg hdneg, ← hd, List.reverse_reverse]

/-- Trimming a string that already matches the namespace pattern changes
nothing. -/
theorem trimSpace_id (core : CStr) (hm : nsMatch core = true) :
    trimSpace core = core := by
  have h := trimSpace_pad [] core [] hm (by simp) (by simp)
  simpa using h

/-- Trimming an all-whitespace string yields the empty string. -/
theorem trimSpace_all_space (l : CStr) (h : ∀ x ∈ l, isGoSpace x = true) :
    trimSpace l = [] := by
  have h1 : l.dropWhile isGoSpace = [] := List.dropWhile_eq_nil_iff.mpr h
  simp [trimSpace, h1]

/-! ### Claim C10: untrimmed emptiness check and trimmed acceptance -/

/-- Claim C10: a nonempty all-whitespace namespace passes the untrimmed
emptiness check and then fails the pattern on its trimmed (empty) form, so
InjectWebEnv reports the could-not-parse-namespace error rather than the
missing-namespace error; and a valid identifier padded with whitespace is
accepted — the computation is identical to the one on the trimmed
identifier, whose text is what the script tag injects. -/
theorem c10_whitespace_namespaces :
    (∀ (filesys : SourceFS) (parseHtml : Bytes → Except Unit HNode)
        (renderHtml : HNode → Except Unit Bytes) (marshalRes : Except Unit CStr)
        (ns : CStr), ns ≠ [] → (∀ x ∈ ns, isGoSpace x = true) →
      InjectWebEnv filesys parseHtml renderHtml marshalRes ns =
        ⟨none, some SErr.couldNotParseNamespace, 0⟩) ∧
    (∀ (filesys : SourceFS) (parseHtml : Bytes → Except Unit HNode)
        (renderHtml : HNode → Except Unit Bytes) (marshalRes : Except Unit CStr)
        (ws1 core ws2 j : CStr), nsMatch core = true →
        (∀ x ∈ ws1, isGoSpace x = true) → (∀ x ∈ ws2, isGoSpace x = true) →
      trimSpace (ws1 ++ core ++ ws2) = core ∧
      InjectWebEnv filesys parseHtml renderHtml marshalRes (ws1 ++ core ++ ws2) =
        InjectWebEnv filesys parseHtml renderHtml marshalRes core ∧
      constructScriptTagE (trimSpace (ws1 ++ core ++ ws2)) (Except.ok j) =
        Except.ok (scriptNode core j)) := by
  constructor
  · intro filesys parseHtml renderHtml marshalRes ns hne hsp
    have ht : trimSpace ns = [] := trimSpace_all_space ns hsp
    have hm : nsMatch (trimSpace ns) = false := by
      rw [ht]
      rfl
    simp [InjectWebEnv, hne, hm]
  · intro filesys parseHtml renderHtml marshalRes ws1 core ws2 j hm h1 h2
    have hpad : trimSpace (ws1 ++ core ++ ws2) = core := trimSpace_pad ws1 core ws2 hm h1 h2
    have hcne : core ≠ [] := by
      intro h
      subst h
      simp [nsMatch] at hm
    have hpne : ws1 ++ core ++ ws2 ≠ [] := by
      simp [List.append_eq_nil]
      intro _ h _
      exact hcne h
    refine ⟨hpad, ?_, by rw [hpad]; rfl⟩
    rw [InjectWebEnv, InjectWebEnv, if_neg hpne, if_neg hcne, hpad,
      trimSpace_id core hm]

/-! ### Correspondence of findHead and the head splice -/

/-- Unfolding equation of findHead on a node. -/
theorem findHead_mk (t : NType) (d : CStr) (a : List (CStr × CStr)) (cc : List HNode) :
    findHead (HNode.mk t d a cc) =
      if t = NType.element ∧ d = "body".data then none
      else if t = NType.element ∧ d = "head".data then some (HNode.mk t d a cc)
      else findHeadList cc := rfl

/-- Unfolding equation of findHeadList on a cons. -/
theorem findHeadList_cons (c : HNode) (rest : List HNode) :
    findHeadList (c :: rest) =
      match findHead c with
      | some h => some h
      | none => findHeadList rest := rfl

/-- Unfolding equation of spliceHead on a node. -/
theorem spliceHead_mk (tag : HNode) (t : NType) (d : CStr) (a : List (CStr × CStr))
    (cc : List HNode) :
    spliceHead tag (HNode.mk t d a cc) =
      if t = NType.element ∧ d = "body".data then none
      else if t = NType.element ∧ d = "head".data then some (HNode.mk t d a (tag :: cc))
      else (spliceHeadList tag cc).map (HNode.mk t d a) := rfl

/-- Unfolding equation of spliceHeadList on a cons. -/
theorem spliceHeadList_cons (tag : HNode) (c : HNode) (rest : List HNode) :
    spliceHeadList tag (c :: rest) =
      match spliceHead tag c with
      | some c2 => some (c2 :: rest)
      | none => (spliceHeadList tag rest).map (fun l => c :: l) := rfl

/-- Every node has positive size. -/
theorem hnode_sizeOf_pos (n : HNode) : 0 < sizeOf n := by
  cases n with
  | mk t d a cc =>
    simp only [HNode.mk.sizeOf_spec]
    omega

/-- Every node list has positive size. -/
theorem hlist_sizeOf_pos (l : List HNode) : 0 < sizeOf l := by
  cases l with
  | nil => simp
  | cons c rest =>
    simp only [List.cons.sizeOf_spec]
    omega

/-- Correspondence property at a node: spliceHead fails exactly when
findHead fails, and when findHead finds a head node, spliceHead rewrites
the document so that the head found afterwards is that node with the tag
prepended to its children. -/
def SpliceNodeP (tag n : HNode) : Prop :=
  (findHead n = none → spliceHead tag n = none) ∧
  ∀ t d a cc, findHead n = some (HNode.mk t d a cc) →
    ∃ n2, spliceHead tag n = some n2 ∧ findHead n2 = some (HNode.mk t d a (tag :: cc))

/-- Correspondence property over a forest. -/
def SpliceListP (tag : HNode) (l : List HNode) : Prop :=
  (findHeadList l = none → spliceHeadList tag l = none) ∧
  ∀ t d a cc, findHeadList l = some (HNode.mk t d a cc) →
    ∃ l2, spliceHeadList tag l = some l2 ∧
      findHeadList l2 = some (HNode.mk t d a (tag :: cc))

/-- The correspondence, proved for all nodes and forests by strong
induction on size. -/
theorem spliceAux (tag : HNode) : ∀ k : Nat,
    (∀ n : HNode, sizeOf n ≤ k → SpliceNodeP tag n) ∧
    (∀ l : List HNode, sizeOf l ≤ k → SpliceListP tag l) := by
  intro k
  induction k with
  | zero =>
    constructor
    · intro n hn
      have := hnode_sizeOf_pos n
      omega
    · intro l hl
      have := hlist_sizeOf_pos l
      omega
  | succ k ih =>
    constructor
    · intro n hn
      match n with
      | HNode.mk t d a cc =>
        have hcc : sizeOf cc ≤ k := by
          simp only [HNode.mk.sizeOf_spec] at hn
          have := hlist_sizeOf_pos cc
          have h1 : 0 < sizeOf t := by cases t <;> simp
          omega
        have ihl := ih.2 cc hcc
        by_cases hb : t = NType.element ∧ d = "body".data
        · constructor
          · intro _
            rw [spliceHead_mk, if_pos hb]
          · intro t2 d2 a2 cc2 hfh
            rw [findHead_mk, if_pos hb] at hfh
            exact absurd hfh (by simp)
        · by_cases hh : t = NType.element ∧ d = "head".data
          · constructor
            · intro hfh
              rw [findHead_mk, if_neg hb, if_pos hh] at hfh
              exact absurd hfh (by simp)
            · intro t2 d2 a2 cc2 hfh
              rw [findHead_mk, if_neg hb, if_pos hh] at hfh
              have heq := Option.some.inj hfh
              injection heq with e1 e2 e3 e4
              subst e1
              subst e2
              subst e3
              subst e4
              refine ⟨HNode.mk t d a (tag :: cc), ?_, ?_⟩
              · rw [spliceHead_mk, if_neg hb, if_pos hh]
              · rw [findHead_mk, if_neg hb, if_pos hh]
          · constructor
            · intro hfh
              rw [findHead_mk, if_neg hb, if_neg hh] at hfh
              rw [spliceHead_mk, if_neg hb, if_neg hh, ihl.1 hfh]
              rfl
            · intro t2 d2 a2 cc2 hfh
              rw [findHead_mk, if_neg hb, if_neg hh] at hfh
              obtain ⟨l2, hs, hf⟩ := ihl.2 t2 d2 a2 cc2 hfh
              refine ⟨HNode.mk t d a l2, ?_, ?_⟩
              · rw [spliceHead_mk, if_neg hb, if_neg hh, hs]
                rfl
              · rw [findHead_mk, if_neg hb, if_neg hh, hf]
    · intro l hl
      match l with
      | [] =>
        constructor
        · intro _
          rfl
        · intro t2 d2 a2 cc2 hfh
          exact absurd hfh (by simp [findHeadList])
      | c :: rest =>
        have hszc : sizeOf c ≤ k := by
          simp only [List.cons.sizeOf_spec] at hl
          have := hlist_sizeOf_pos rest
          omega
        have hszr : sizeOf rest ≤ k := by
          simp only [List.cons.sizeOf_spec] at hl
          have := hnode_sizeOf_pos c
          omega
        have ihn := ih.1 c hszc
        have ihr := ih.2 rest hszr
        cases hc : findHead c with
        | none =>
          have hsc : spliceHead tag c = none := ihn.1 hc
          constructor
          · intro hfh
            rw [findHeadList_cons, hc] at hfh
            simp only at hfh
            rw [spliceHeadList_cons, hsc]
            simp only
            rw [ihr.1 hfh]
            rfl
          · intro t2 d2 a2 cc2 hfh
            rw [findHeadList_cons, hc] at hfh
            simp only at hfh
            obtain ⟨l2, hs, hf⟩ := ihr.2 t2 d2 a2 cc2 hfh
            refine ⟨c :: l2, ?_, ?_⟩
            · rw [spliceHeadList_cons, hsc]
              simp only
              rw [hs]
              rfl
            · rw [findHeadList_cons, hc]
              simp only
              exact hf
        | some h0 =>
          constructor
          · intro hfh
            rw [findHeadList_cons, hc] at hfh
            exact absurd hfh (by simp)
          · intro t2 d2 a2 cc2 hfh
            rw [findHeadList_cons, hc] at hfh
            simp only at hfh
            have h0eq := Option.some.inj hfh
            subst h0eq
            obtain ⟨n2, hs, hf⟩ := ihn.2 t2 d2 a2 cc2 hc
            refine ⟨n2 :: rest, ?_, ?_⟩
            · rw [spliceHeadList_cons, hs]
            · rw [findHeadList_cons, hf]

/-- When findHead finds no head, spliceHead rewrites nothing. -/
theorem spliceHead_none (tag n : HNode) (h : findHead n = none) :
    spliceHead tag n = none :=
  ((spliceAux tag (sizeOf n)).1 n le_rfl).1 h

/-- When findHead finds a head node, spliceHead succeeds and the head of
the rewritten document is that node with the tag as new first child and the
original children after it, in order. -/
theorem spliceHead_found (tag n : HNode) (t : NType) (d : CStr)
    (a : List (CStr × CStr)) (cc : List HNode)
    (h : findHead n = some (HNode.mk t d a cc)) :
    ∃ n2, spliceHead tag n = some n2 ∧
      findHead n2 = some (HNode.mk t d a (tag :: cc)) :=
  ((spliceAux tag (sizeOf n)).1 n le_rfl).2 t d a cc h

/-- Witness for C10: two literal spaces are rejected as unparsable (not as
missing), and a space-padded identifier computes exactly as the trimmed
identifier does. -/
theorem c10_whitespace_witness :
    InjectWebEnv ⟨true, []⟩ (fun _ => Except.error ()) (fun _ => Except.error ())
        (Except.ok "42".data) "  ".data =
      ⟨none, some SErr.couldNotParseNamespace, 0⟩ ∧
    trimSpace " abc ".data = "abc".data ∧
    InjectWebEnv ⟨true, []⟩ (fun _ => Except.error ()) (fun _ => Except.error ())
        (Except.ok "42".data) " abc ".data =
      InjectWebEnv ⟨true, []⟩ (fun _ => Except.error ()) (fun _ => Except.error ())
        (Except.ok "42".data) "abc".data := by
  have h := c10_whitespace_namespaces.2 ⟨true, []⟩ (fun _ => Except.error ())
    (fun _ => Except.error ()) (Except.ok "42".data) " ".data "abc".data " ".data
    "42".data (by decide) (by decide) (by decide)
  have happ : (" ".data ++ "abc".data ++ " ".data) = " abc ".data := by decide
  refine ⟨?_, ?_, ?_⟩
  · exact c10_whitespace_namespaces.1 ⟨true, []⟩ (fun _ => Except.error ())
      (fun _ => Except.error ()) (Except.ok "42".data) "  ".data (by decide) (by decide)
  · rw [← happ]
    exact h.1
  · rw [← happ]
    exact h.2.1

/-! ### Claims C2 and C7: the head search and the splice -/

/-- Shared helper: on index.html, when the parsed document has no head,
the hook fails with the find-head error. -/
theorem appendToIndexM_headMissing (parseHtml : Bytes → Except Unit HNode)
    (renderHtml : HNode → Except Unit Bytes) (tag : HNode) (d : Bytes) (doc : HNode)
    (hp : parseHtml d = Except.ok doc) (hf : findHead doc = none) :
    appendToIndexM parseHtml renderHtml tag "index.html".data d =
      Except.error SErr.couldNotFindHead := by
  have hne : ¬("index.html".data ≠ "index.html".data) := not_not_intro rfl
  simp only [appendToIndexM, if_neg hne, hp]
  rw [spliceHead_none tag doc hf]

/-- A document whose html element has a body as first child and the head as
a later sibling: depth-first order meets the body strictly before the head. -/
def bodyThenHeadDoc : HNode :=
  HNode.mk NType.element "html".data []
    [HNode.mk NType.element "body".data [] [], HNode.mk NType.element "head".data [] []]

/-- Claim C2 counterexample: in this document the depth-first preorder
visits a body element before any head element, yet findHead still returns
the head — the body short-circuit does not make the search return
not-found for the whole document, only for the subtree under the body. -/
theorem c2_body_before_head_counterexample :
    preTags bodyThenHeadDoc =
      [(NType.element, "html".data), (NType.element, "body".data),
        (NType.element, "head".data)] ∧
    findHead bodyThenHeadDoc = some (HNode.mk NType.element "head".data [] []) :=
  ⟨rfl, rfl⟩

/-- Claim C2 as amended: findHead is a depth-first search returning the
first head element; a body element terminates only the search of the
subtree rooted at that body — the search resumes with the body's later
siblings, so a head occurring after a body elsewhere in the document is
still found.  When the parsed entry document has no head element at all,
the index.html hook fails with the head-element-missing error, and this
failure aborts the entire rewrite walk. -/
theorem c2_findHead_semantics :
    (∀ (a : List (CStr × CStr)) (cc : List HNode),
      findHead (HNode.mk NType.element "body".data a cc) = none) ∧
    (∀ (a : List (CStr × CStr)) (cc rest : List HNode),
      findHeadList (HNode.mk NType.element "body".data a cc :: rest) = findHeadList rest) ∧
    (∀ (parseHtml : Bytes → Except Unit HNode) (renderHtml : HNode → Except Unit Bytes)
        (tag : HNode) (d : Bytes) (doc : HNode),
      parseHtml d = Except.ok doc → findHead doc = none →
      appendToIndexM parseHtml renderHtml tag "index.html".data d =
        Except.error SErr.couldNotFindHead) ∧
    (∀ (parseHtml : Bytes → Except Unit HNode) (renderHtml : HNode → Except Unit Bytes)
        (tag : HNode) (d : Bytes) (doc : HNode) (pre rest : List WalkEntry),
      parseHtml d = Except.ok doc → findHead doc = none →
      (copyGo (some (appendToIndexM parseHtml renderHtml tag)) pre Snap.empty).err = none →
      (CopyFileSys (pre ++ WalkEntry.fileE "index.html".data d false false false :: rest)
          (some (appendToIndexM parseHtml renderHtml tag))).err =
        some SErr.couldNotFindHead) := by
  refine ⟨?_, ?_, appendToIndexM_headMissing, ?_⟩
  · intro a cc
    rw [findHead_mk, if_pos ⟨rfl, rfl⟩]
  · intro a cc rest
    rw [findHeadList_cons, findHead_mk, if_pos ⟨rfl, rfl⟩]
  · intro parseHtml renderHtml tag d doc pre rest hp hf hok
    have hef : entryFailure (some (appendToIndexM parseHtml renderHtml tag))
        (WalkEntry.fileE "index.html".data d false false false) =
          some SErr.couldNotFindHead := by
      simp [entryFailure, hookApply,
        appendToIndexM_headMissing parseHtml renderHtml tag d doc hp hf]
    have h := copyGo_append_fail (some (appendToIndexM parseHtml renderHtml tag)) pre
      Snap.empty (WalkEntry.fileE "index.html".data d false false false) rest
      SErr.couldNotFindHead hok hef
    show (copyGo (some (appendToIndexM parseHtml renderHtml tag))
      (pre ++ WalkEntry.fileE "index.html".data d false false false :: rest)
      Snap.empty).err = some SErr.couldNotFindHead
    rw [h]

/-- A document with no head element anywhere. -/
def noHeadDoc : HNode :=
  HNode.mk NType.element "html".data [] [HNode.mk NType.element "body".data [] []]

/-- Witness for the amended C2: the hook on a headless document fails with
the find-head error, and a one-file walk over that index.html aborts with
the same error. -/
theorem c2_findHead_witness :
    appendToIndexM (fun _ => Except.ok noHeadDoc) (fun _ => Except.error ())
        (scriptNode "APP_ENV".data "42".data) "index.html".data [0] =
      Except.error SErr.couldNotFindHead ∧
    (CopyFileSys [WalkEntry.fileE "index.html".data [0] false false false]
        (some (appendToIndexM (fun _ => Except.ok noHeadDoc) (fun _ => Except.error ())
          (scriptNode "APP_ENV".data "42".data)))).err =
      some SErr.couldNotFindHead := by
  constructor
  · exact c2_findHead_semantics.2.2.1 (fun _ => Except.ok noHeadDoc)
      (fun _ => Except.error ()) (scriptNode "APP_ENV".data "42".data) [0] noHeadDoc rfl rfl
  · exact c2_findHead_semantics.2.2.2 (fun _ => Except.ok noHeadDoc)
      (fun _ => Except.error ()) (scriptNode "APP_ENV".data "42".data) [0] noHeadDoc
      [] [] rfl rfl rfl

/-- Claim C7: for a valid namespace and a successfully marshalled
configuration, the constructed script element carries the
type-text/javascript attribute and the single text child
window.NS = JSON; and splicing it into any document whose head findHead
locates yields a document whose head has the script as new first child
with all original children after it, in order. -/
theorem c7_script_first_child (ns j : CStr) (doc : HNode) (t : NType) (d : CStr)
    (a : List (CStr × CStr)) (cc : List HNode) (hns : nsMatch ns = true) :
    constructScriptTagE ns (Except.ok j) = Except.ok (scriptNode ns j) ∧
    scriptNode ns j = HNode.mk NType.element "script".data
      [("type".data, "text/javascript".data)]
      [HNode.mk NType.text ("window.".data ++ ns ++ " = ".data ++ j ++ ";".data) [] []] ∧
    (findHead doc = some (HNode.mk t d a cc) →
      ∃ doc2, spliceHead (scriptNode ns j) doc = some doc2 ∧
        findHead doc2 = some (HNode.mk t d a (scriptNode ns j :: cc))) :=
  ⟨rfl, rfl, fun h => spliceHead_found (scriptNode ns j) doc t d a cc h⟩

/-- A well-formed document: head with a title child, then a body. -/
def goodDoc : HNode :=
  HNode.mk NType.element "html".data []
    [HNode.mk NType.element "head".data [] [HNode.mk NType.element "title".data [] []],
     HNode.mk NType.element "body".data [] []]

/-- Witness for C7 on a concrete document and namespace. -/
theorem c7_script_first_child_witness :
    ∃ doc2, spliceHead (scriptNode "APP_ENV".data "42".data) goodDoc = some doc2 ∧
      findHead doc2 = some (HNode.mk NType.element "head".data []
        (scriptNode "APP_ENV".data "42".data ::
          [HNode.mk NType.element "title".data [] []])) :=
  (c7_script_first_child "APP_ENV".data "42".data goodDoc NType.element "head".data []
    [HNode.mk NType.element "title".data [] []] (by decide)).2.2 rfl

/-! ### Claim C3: extension-based fallback for absent paths -/

/-- Claim C3: in both resolvers, a non-root cleaned path whose snapshot
open fails with not-exist yields a 404 when the path has a file-extension
suffix and the entry-document fallback (serving the root) when it has
none. -/
theorem c3_notfound_vs_fallback :
    (∀ (basePath : CStr) (snapOpen : CStr → OpenRes) (raw : CStr),
      cleanedNew basePath raw ≠ [] →
      snapOpen (cleanedNew basePath raw) = OpenRes.notExist →
      serveHTTPNew basePath snapOpen raw =
        (if extNonEmpty (cleanedNew basePath raw) then Outcome.notFound
          else Outcome.serve "/".data)) ∧
    (∀ (basePath : CStr) (snapOpen : CStr → OpenRes) (raw : CStr),
      raw ≠ "/".data → cleanedStatic basePath raw ≠ [] →
      snapOpen (cleanedStatic basePath raw) = OpenRes.notExist →
      serveHTTPStatic basePath snapOpen raw =
        (if extNonEmpty (cleanedStatic basePath raw) then Outcome.notFound
          else Outcome.serve "/".data)) := by
  constructor
  · intro basePath snapOpen raw hne hop
    have hidx : ¬('/' :: cleanedNew basePath raw = "index.html".data) := by
      intro h
      have h2 := congrArg List.head? h
      have h3 : List.head? "index.html".data = some 'i' := rfl
      rw [h3] at h2
      simp only [List.head?_cons, Option.some.injEq] at h2
      exact absurd h2 (by decide)
    have hroot : ¬('/' :: cleanedNew basePath raw = "/".data) := by
      intro h
      have h2 : '/' :: cleanedNew basePath raw = ['/'] := h
      injection h2 with _ h3
      exact hne h3
    simp only [serveHTTPNew]
    rw [if_neg hidx, if_neg hroot, hop]
  · intro basePath snapOpen raw hraw hne hop
    obtain ⟨c0, tl, hc⟩ := List.exists_cons_of_ne_nil hne
    simp only [serveHTTPStatic, if_neg hraw]
    rw [hop, hc]

/-- Witness for C3: a missing path with an extension is a 404, a missing
extension-less route falls back to the entry document, in each resolver. -/
theorem c3_notfound_vs_fallback_witness :
    serveHTTPNew "/".data (fun _ => OpenRes.notExist) "/missing.txt".data =
      Outcome.notFound ∧
    serveHTTPNew "/".data (fun _ => OpenRes.notExist) "/some/client/route".data =
      Outcome.serve "/".data ∧
    serveHTTPStatic "/".data (fun _ => OpenRes.notExist) "/missing.txt".data =
      Outcome.notFound := by
  refine ⟨?_, ?_, ?_⟩
  · exact (c3_notfound_vs_fallback.1 "/".data (fun _ => OpenRes.notExist)
      "/missing.txt".data (by decide) rfl).trans (by decide)
  · exact (c3_notfound_vs_fallback.1 "/".data (fun _ => OpenRes.notExist)
      "/some/client/route".data (by decide) rfl).trans (by decide)
  · exact (c3_notfound_vs_fallback.2 "/".data (fun _ => OpenRes.notExist)
      "/missing.txt".data (by decide) (by decide) rfl).trans (by decide)

/-! ### Claim C8: only index.html is transformed -/

/-- Claim C8: the appendToIndex hook is the identity on every path other
than index.html, and on a successful rewrite walk every source file at a
path other than index.html is stored in the snapshot with exactly its
source bytes. -/
theorem c8_only_index_transformed (parseHtml : Bytes → Except Unit HNode)
    (renderHtml : HNode → Except Unit Bytes) (tag : HNode) :
    (∀ (p : CStr) (d : Bytes), p ≠ "index.html".data →
      appendToIndexM parseHtml renderHtml tag p d = Except.ok d) ∧
    (∀ (entries : List WalkEntry) (p : CStr) (c : Bytes) (oF rF wF : Bool),
      (entries.map entryPath).Nodup →
      (CopyFileSys entries (some (appendToIndexM parseHtml renderHtml tag))).err = none →
      WalkEntry.fileE p c oF rF wF ∈ entries → p ≠ "index.html".data →
      (CopyFileSys entries
          (some (appendToIndexM parseHtml renderHtml tag))).snap.lookupFile p =
        some c) := by
  have hid : ∀ (p : CStr) (d : Bytes), p ≠ "index.html".data →
      appendToIndexM parseHtml renderHtml tag p d = Except.ok d := by
    intro p d hp
    rw [appendToIndexM, if_pos hp]
  refine ⟨hid, ?_⟩
  intro entries p c oF rF wF hnd hok hmem hp
  exact copyGo_preserves (some (appendToIndexM parseHtml renderHtml tag)) entries
    Snap.empty p c oF rF wF hnd hok hmem
    (fun d => by simp [hookApply, hid p d hp])

/-- Witness for C8 on a one-file walk not touching index.html. -/
theorem c8_only_index_transformed_witness :
    appendToIndexM (fun _ => Except.error ()) (fun _ => Except.error ())
        (scriptNode "APP_ENV".data "42".data) "app.js".data [7] = Except.ok [7] ∧
    (CopyFileSys [WalkEntry.fileE "app.js".data [7] false false false]
        (some (appendToIndexM (fun _ => Except.error ()) (fun _ => Except.error ())
          (scriptNode "APP_ENV".data "42".data)))).snap.lookupFile "app.js".data =
      some [7] := by
  constructor
  · exact (c8_only_index_transformed (fun _ => Except.error ()) (fun _ => Except.error ())
      (scriptNode "APP_ENV".data "42".data)).1 "app.js".data [7] (by decide)
  · exact (c8_only_index_transformed (fun _ => Except.error ()) (fun _ => Except.error ())
      (scriptNode "APP_ENV".data "42".data)).2
      [WalkEntry.fileE "app.js".data [7] false false false] "app.js".data [7]
      false false false (by decide) (by decide) (by decide) (by decide)
